import Mathlib

/-!
Verification development for the Purrmachine cat-purr synthesizer
(src/purr.ino): a shallow embedding of the per-sample generation loop
and proofs about it.

Modelling conventions:

* C float values and float arithmetic are modelled by exact rational
  numbers.  All concrete parameter values appearing in the claims
  (0.2, 1.2, 1.3, ...) are exactly representable and the derived
  integer quantities computed below coincide with the values the
  32-bit float evaluation produces, so nothing in the claims hinges on
  float rounding.
* Conversions from float to a C integer type truncate toward zero
  (cTrunc).  Conversion from int to unsigned int is reduction mod 2^32
  (toU32).  unsigned int counters live in Nat and are incremented
  mod 2^32.
* sinf is a transcendental library call; the envelope computation
  sinf(progress * PI) is modelled by an abstract function
  env : Q -> Q applied to the progress value.  Every theorem below
  quantifies over env, so the results hold for any envelope shape.
* The vocal tract filter comes from the external libFilter library
  (new Filter(...), filterIn).  It is modelled by an abstract state
  type sigma together with a step function filt : sigma -> Q -> sigma x Q
  returning the new internal state and the filtered sample.  Every
  theorem quantifies over filt.
* The I2S output sink is external; ConsumeSample is modelled as
  accepting the sample pair immediately (the retry/yield counter is
  diagnostic only and no claim depends on it).
* The debounced hardware interrupt (handleInterrupt) is modelled as an
  abstract request event requestToggle that sets the volatile flag
  soundactive_toggle; the millis-based debounce window is external
  real-time behaviour outside the embedding.
* In the source, the breath-cycle boundaries inh_impulse_n, hold_n,
  exh_impulse_n, rest_n are plain locals of loop(), assigned only
  inside the `if (PurrConfigUpdate)` block.  Since PurrConfigUpdate is
  initialised to true and never cleared, the block runs on every
  iteration and the locals are always freshly computed.  The model
  computes them unconditionally; for states with configUpdate = false
  the C code would read uninitialised locals (undefined behaviour), a
  situation the initial state and the tick function provably never
  reach (see the always-fresh theorems).
* The local float `progress` is likewise left unassigned by the
  HOLD/REST branches; the model carries the previous value in the
  state (the stale-value reading), and the HOLD/REST safety theorem is
  proved for an arbitrary envelope value, so the choice is irrelevant.
-/

namespace Purrmachine

/-- Truncation toward zero of a rational, the semantics of the C
conversion from a float value to an integer type. -/
def cTrunc (q : ℚ) : ℤ := if 0 ≤ q then ⌊q⌋ else -⌊-q⌋

/-- Reinterpretation of a C int value as unsigned int (reduction
mod 2^32). -/
def toU32 (z : ℤ) : ℕ := (z % 2 ^ 32).toNat

/-- Conversion of a float value to unsigned int: truncation toward
zero.  For arguments outside [0, 2^32) the C conversion is undefined
behaviour; the model takes the truncation mod 2^32. -/
def u32ofQ (q : ℚ) : ℕ := (cTrunc q).toNat % 2 ^ 32

/-- The tunable synthesis parameters of purr.ino (the global float
configuration variables, plus the sample rate constant, which the spec
exposes as a ParameterSet field). -/
structure Params where
  inh_ampl : ℚ
  exh_ampl : ℚ
  inh_imp_freq : ℚ
  inh_imp_invwid : ℚ
  inh_imp_fwdwid : ℚ
  exh_imp_freq : ℚ
  exh_imp_invwid : ℚ
  exh_imp_fwdwid : ℚ
  vocal_cutoff_freq : ℚ
  inhale_time : ℚ
  exhale_factor : ℚ
  breath_hold : ℚ
  breath_rest : ℚ
  sample_rate : ℤ
deriving DecidableEq

/-- The default configuration values from the top of purr.ino
(SAMPLE_RATE = 44100, exh_ampl = inh_ampl * 0.5, and so on). -/
def defaultParams : Params where
  inh_ampl := 0.2
  exh_ampl := 0.2 * 0.5
  inh_imp_freq := 30
  inh_imp_invwid := 0.2
  inh_imp_fwdwid := 0.3
  exh_imp_freq := 28
  exh_imp_invwid := 0.2
  exh_imp_fwdwid := 0.3
  vocal_cutoff_freq := 180
  inhale_time := 1.2
  exhale_factor := 1.3
  breath_hold := 0.1
  breath_rest := 0.5
  sample_rate := 44100

/-- The static unsigned int impulse-generator thresholds of loop():
impulse cycle widths and reverse/forward pulse end offsets for inhale
and exhale. -/
structure Cache where
  inhW : ℕ
  exhW : ℕ
  inhRev : ℕ
  inhFwd : ℕ
  exhRev : ℕ
  exhFwd : ℕ
deriving DecidableEq

/-- The int locals of loop() holding the cumulative breath-cycle
boundaries in samples. -/
structure Bounds where
  inh_n : ℤ
  hold_n : ℤ
  exh_n : ℤ
  rest_n : ℤ
deriving DecidableEq

/-- Samples per inhale impulse cycle: SAMPLE_RATE / inh_imp_freq,
truncated to unsigned int. -/
def inhWidth (p : Params) : ℕ := u32ofQ ((p.sample_rate : ℚ) / p.inh_imp_freq)

/-- Samples per exhale impulse cycle: SAMPLE_RATE / exh_imp_freq,
truncated to unsigned int. -/
def exhWidth (p : Params) : ℕ := u32ofQ ((p.sample_rate : ℚ) / p.exh_imp_freq)

/-- inh_impulse_revtime: end offset of the inhale reverse pulse,
width * invwid truncated to unsigned int. -/
def inhRevT (p : Params) : ℕ := u32ofQ ((inhWidth p : ℚ) * p.inh_imp_invwid)

/-- inh_impulse_fwdtime: end offset of the inhale forward pulse.  In
the source the unsigned revtime is added to the float product and the
float sum is truncated once on assignment. -/
def inhFwdT (p : Params) : ℕ :=
  u32ofQ ((inhRevT p : ℚ) + (inhWidth p : ℚ) * p.inh_imp_fwdwid)

/-- exh_impulse_revtime, as for inhale. -/
def exhRevT (p : Params) : ℕ := u32ofQ ((exhWidth p : ℚ) * p.exh_imp_invwid)

/-- exh_impulse_fwdtime, as for inhale. -/
def exhFwdT (p : Params) : ℕ :=
  u32ofQ ((exhRevT p : ℚ) + (exhWidth p : ℚ) * p.exh_imp_fwdwid)

/-- The impulse-threshold computation in the `if (PurrConfigUpdate)`
block of loop(). -/
def computeCache (p : Params) : Cache :=
  ⟨inhWidth p, exhWidth p, inhRevT p, inhFwdT p, exhRevT p, exhFwdT p⟩

/-- inh_impulse_n: end of the inhale phase in samples,
SAMPLE_RATE * inhale_time truncated to int. -/
def inhEnd (p : Params) : ℤ := cTrunc ((p.sample_rate : ℚ) * p.inhale_time)

/-- hold_n: end of the breath-hold phase, the previous int boundary
plus SAMPLE_RATE * breath_hold, the float sum truncated to int. -/
def holdEnd (p : Params) : ℤ :=
  cTrunc ((inhEnd p : ℚ) + (p.sample_rate : ℚ) * p.breath_hold)

/-- exh_impulse_n: end of the exhale phase, the previous boundary plus
SAMPLE_RATE * inhale_time * exhale_factor, truncated to int. -/
def exhEnd (p : Params) : ℤ :=
  cTrunc ((holdEnd p : ℚ) +
    (p.sample_rate : ℚ) * p.inhale_time * p.exhale_factor)

/-- rest_n: the full breath-cycle length, the previous boundary plus
SAMPLE_RATE * breath_rest, truncated to int. -/
def cycleLen (p : Params) : ℤ :=
  cTrunc ((exhEnd p : ℚ) + (p.sample_rate : ℚ) * p.breath_rest)

/-- The breath-cycle boundary computation in the `if (PurrConfigUpdate)`
block of loop(). -/
def computeBounds (p : Params) : Bounds :=
  ⟨inhEnd p, holdEnd p, exhEnd p, cycleLen p⟩

/-- Rounding to the nearest integer with ties away from zero, the
semantics of roundf used by floatToSigned. -/
def roundAway (q : ℚ) : ℤ := if 0 ≤ q then ⌊q + 1 / 2⌋ else -⌊-q + 1 / 2⌋

/-- The saturating float-to-int16 conversion floatToSigned of
purr.ino: clamp above 1.0 to 32767, below -1.0 to -32767, otherwise
roundf(samp * 32767). -/
def floatToSigned (samp : ℚ) : ℤ :=
  if samp > 1 then 32767
  else if samp < -1 then -32767
  else roundAway (samp * 32767)

/-- The four breath-cycle phases. -/
inductive Phase
  | INHALE
  | HOLD
  | EXHALE
  | REST
deriving DecidableEq

/-- The phase selected by the if/else-if chain of loop() on the cycle
position.  The comparisons in the source compare the unsigned counter
with the int boundaries, which converts each boundary to unsigned. -/
def phase (b : Bounds) (cyc : ℕ) : Phase :=
  if cyc < toU32 b.inh_n then .INHALE
  else if cyc < toU32 b.hold_n then .HOLD
  else if cyc < toU32 b.exh_n then .EXHALE
  else .REST

/-- The impulse-position value after the in-branch reset: in an active
phase the counter is reset to 0 when it has reached the
impulse width of that phase; HOLD and REST never reset it. -/
def effImp (c : Cache) (b : Bounds) (cyc imp : ℕ) : ℕ :=
  match phase b cyc with
  | .INHALE => if c.inhW ≤ imp then 0 else imp
  | .EXHALE => if c.exhW ≤ imp then 0 else imp
  | _ => imp

/-- The raw impulse sample imp_samp produced by the phase branch of
loop() for the current cycle position and (post-reset) impulse
position. -/
def rawSample (p : Params) (c : Cache) (b : Bounds) (cyc imp : ℕ) : ℚ :=
  let q := effImp c b cyc imp
  match phase b cyc with
  | .INHALE =>
      if q = 0 then 0
      else if q < c.inhRev then -p.inh_ampl
      else if q < c.inhFwd then p.inh_ampl
      else 0
  | .HOLD => 0
  | .EXHALE =>
      if q = 0 then 0
      else if q < c.exhRev then p.exh_ampl
      else if q < c.exhFwd then -p.exh_ampl
      else 0
  | .REST => 0

/-- The phase-progress value after the branch: INHALE and EXHALE
recompute it; HOLD and REST leave the local untouched (stale). -/
def newProgress (b : Bounds) (cyc : ℕ) (old : ℚ) : ℚ :=
  match phase b cyc with
  | .INHALE => (cyc : ℚ) / (b.inh_n : ℚ)
  | .EXHALE => ((cyc - toU32 b.hold_n : ℕ) : ℚ) / ((b.exh_n - b.hold_n : ℤ) : ℚ)
  | _ => old

/-- The persistent state of loop(): the PurrConfigUpdate flag, the
static threshold cache, the static impulse/cycle counters, the yields
diagnostic, the first-iteration flag, the latched gate state, the
volatile toggle request flag, the (stale-capable) progress local, and
the opaque internal state of the vocal tract filter. -/
structure PurrState (σ : Type) where
  configUpdate : Bool
  cache : Cache
  imp : ℕ
  cyc : ℕ
  yields : ℤ
  first : Bool
  latched : Bool
  toggle : Bool
  progress : ℚ
  fstate : σ
deriving DecidableEq

/-- The cycle-complete block at the top of loop(): at cyc == 0 on a
non-first iteration, a pending toggle request flips the latched gate
state and is cleared.  Returns the (latched, toggle) pair after the
block. -/
def consumeGate {σ : Type} (s : PurrState σ) : Bool × Bool :=
  if s.cyc = 0 ∧ s.first = false then
    (if s.toggle then !s.latched else s.latched, false)
  else (s.latched, s.toggle)

/-- One full iteration of loop(), returning the new state and the
stereo sample pair handed to the sink.  env models sinf(. * PI) and
filt models Filter::filterIn. -/
def tickFull {σ : Type} (env : ℚ → ℚ) (filt : σ → ℚ → σ × ℚ) (p : Params)
    (s : PurrState σ) : PurrState σ × (ℤ × ℤ) :=
  let g := consumeGate s
  let yld : ℤ := if s.cyc = 0 ∧ s.first = false then 0 else s.yields
  let cache := if s.configUpdate then computeCache p else s.cache
  let b := computeBounds p
  let raw := rawSample p cache b s.cyc s.imp
  let prog := newProgress b s.cyc s.progress
  let imp := (effImp cache b s.cyc s.imp + 1) % 2 ^ 32
  let c1 := (s.cyc + 1) % 2 ^ 32
  let cyc := if toU32 b.rest_n ≤ c1 then 0 else c1
  let shaped := raw * env prog
  let fr := filt s.fstate shaped
  (⟨s.configUpdate, cache, imp, cyc, yld, false, g.1, g.2, prog, fr.1⟩,
   if g.1 then (floatToSigned fr.2, floatToSigned fr.2) else (0, 0))

/-- The state transition of one loop() iteration. -/
def tick {σ : Type} (env : ℚ → ℚ) (filt : σ → ℚ → σ × ℚ) (p : Params)
    (s : PurrState σ) : PurrState σ :=
  (tickFull env filt p s).1

/-- The stereo sample pair emitted during one loop() iteration. -/
def tickOut {σ : Type} (env : ℚ → ℚ) (filt : σ → ℚ → σ × ℚ) (p : Params)
    (s : PurrState σ) : ℤ × ℤ :=
  (tickFull env filt p s).2

/-- The effect of the debounced external interrupt handleInterrupt:
set the volatile soundactive_toggle flag. -/
def requestToggle {σ : Type} (s : PurrState σ) : PurrState σ :=
  { s with toggle := true }

/-- One loop() iteration preceded by an optional external toggle
request delivered since the previous iteration. -/
def step {σ : Type} (env : ℚ → ℚ) (filt : σ → ℚ → σ × ℚ) (p : Params)
    (s : PurrState σ) (r : Bool) : PurrState σ :=
  tick env filt p (if r then requestToggle s else s)

/-- The state at the start of the first loop() iteration: statics are
zero-initialised, first = true, the gate starts unlatched (muted
output), no pending toggle, PurrConfigUpdate = true.  f0 is the
initial internal state of the freshly constructed filter. -/
def initState {σ : Type} (f0 : σ) : PurrState σ :=
  ⟨true, ⟨0, 0, 0, 0, 0, 0⟩, 0, 0, 0, true, false, false, 0, f0⟩

/-- Variant of the loop body that recomputes the derived timing cache
unconditionally on every iteration; the spec describes the pipeline as
always treating the cache as possibly stale and recomputing eagerly.
Used to state that the dirty-flag design is equivalent to an
always-fresh recompute. -/
def tickFresh {σ : Type} (env : ℚ → ℚ) (filt : σ → ℚ → σ × ℚ) (p : Params)
    (s : PurrState σ) : PurrState σ :=
  tick env filt p { s with cache := computeCache p, configUpdate := true }

/-- The validity invariants the spec imposes on a ParameterSet: all
frequencies positive, width fractions in (0,1) with per-phase sum
below 1, durations nonnegative, positive exhale ratio and sample
rate. -/
def ValidParams (p : Params) : Prop :=
  0 < p.inh_imp_freq ∧ 0 < p.exh_imp_freq ∧ 0 < p.vocal_cutoff_freq ∧
  0 < p.inh_imp_invwid ∧ p.inh_imp_invwid < 1 ∧
  0 < p.inh_imp_fwdwid ∧ p.inh_imp_fwdwid < 1 ∧
  p.inh_imp_invwid + p.inh_imp_fwdwid < 1 ∧
  0 < p.exh_imp_invwid ∧ p.exh_imp_invwid < 1 ∧
  0 < p.exh_imp_fwdwid ∧ p.exh_imp_fwdwid < 1 ∧
  p.exh_imp_invwid + p.exh_imp_fwdwid < 1 ∧
  0 ≤ p.inhale_time ∧ 0 ≤ p.breath_hold ∧ 0 ≤ p.breath_rest ∧
  0 < p.exhale_factor ∧ 0 < p.sample_rate

instance (p : Params) : Decidable (ValidParams p) := by
  unfold ValidParams; infer_instance

/-! ### Arithmetic facts about the derived quantities -/

theorem cTrunc_of_nonneg {q : ℚ} (h : 0 ≤ q) : cTrunc q = ⌊q⌋ := by
  unfold cTrunc
  exact if_pos h

theorem cTrunc_nonneg {q : ℚ} (h : 0 ≤ q) : 0 ≤ cTrunc q := by
  rw [cTrunc_of_nonneg h]
  exact Int.floor_nonneg.mpr h

/-- Evaluation of the derived cache at the default configuration. -/
theorem defaultCache_eval :
    computeCache defaultParams = ⟨1470, 1575, 294, 735, 315, 787⟩ := by
  have h1 : inhWidth defaultParams = 1470 := by
    unfold inhWidth defaultParams u32ofQ cTrunc
    norm_num
    decide
  have h2 : exhWidth defaultParams = 1575 := by
    unfold exhWidth defaultParams u32ofQ cTrunc
    norm_num
    decide
  have h3 : inhRevT defaultParams = 294 := by
    unfold inhRevT
    rw [h1]
    unfold defaultParams u32ofQ cTrunc
    norm_num
    decide
  have h4 : exhRevT defaultParams = 315 := by
    unfold exhRevT
    rw [h2]
    unfold defaultParams u32ofQ cTrunc
    norm_num
    decide
  have h5 : inhFwdT defaultParams = 735 := by
    unfold inhFwdT
    rw [h1, h3]
    unfold defaultParams u32ofQ cTrunc
    norm_num
    decide
  have h6 : exhFwdT defaultParams = 787 := by
    unfold exhFwdT
    rw [h2, h4]
    unfold defaultParams u32ofQ cTrunc
    norm_num
    decide
  unfold computeCache
  rw [h1, h2, h3, h4, h5, h6]

/-- Evaluation of the breath-cycle boundaries at the default
configuration. -/
theorem defaultBounds_eval :
    computeBounds defaultParams = ⟨52920, 57330, 126126, 148176⟩ := by
  have h1 : inhEnd defaultParams = 52920 := by
    unfold inhEnd defaultParams cTrunc
    norm_num
  have h2 : holdEnd defaultParams = 57330 := by
    unfold holdEnd
    rw [h1]
    unfold defaultParams cTrunc
    norm_num
  have h3 : exhEnd defaultParams = 126126 := by
    unfold exhEnd
    rw [h2]
    unfold defaultParams cTrunc
    norm_num
  have h4 : cycleLen defaultParams = 148176 := by
    unfold cycleLen
    rw [h3]
    unfold defaultParams cTrunc
    norm_num
  unfold computeBounds
  rw [h1, h2, h3, h4]

/-- The default configuration satisfies the spec invariants. -/
theorem defaultParams_valid : ValidParams defaultParams := by
  unfold ValidParams defaultParams
  norm_num

/-! ### Claim C3: end-to-end timing example -/

/-- C3 counterexample: with the stated parameters the code computes
exhaleEnd = 126126 and cycleLength = 148176, not the 126048 and
148098 the claim states (57330 + 44100 * 1.2 * 1.3 = 126126). -/
theorem c3_timing_example_cex :
    (computeBounds defaultParams).exh_n ≠ 126048 ∧
    (computeBounds defaultParams).rest_n ≠ 148098 := by
  rw [defaultBounds_eval]
  constructor
  · decide
  · decide

/-- C3 (amended): with sampleRate 44100, inhaleDuration 1.2 s, hold
0.1 s, exhaleRatio 1.3 and rest 0.5 s, the derived boundaries are
inhaleEnd = 52920, holdEnd = 57330, exhaleEnd = 126126 and
cycleLength = 148176 samples, with integer truncation at each step. -/
theorem c3_timing_example :
    computeBounds defaultParams =
      ⟨52920, 57330, 126126, 148176⟩ := by
  have h1 : inhEnd defaultParams = 52920 := by
    unfold inhEnd defaultParams cTrunc
    norm_num
  have h2 : holdEnd defaultParams = 57330 := by
    unfold holdEnd
    rw [h1]
    unfold defaultParams cTrunc
    norm_num
  have h3 : exhEnd defaultParams = 126126 := by
    unfold exhEnd
    rw [h2]
    unfold defaultParams cTrunc
    norm_num
  have h4 : cycleLen defaultParams = 148176 := by
    unfold cycleLen
    rw [h3]
    unfold defaultParams cTrunc
    norm_num
  unfold computeBounds
  rw [h1, h2, h3, h4]

/-! ### Claim C4: boundary ordering invariant -/

/-- A valid ParameterSet (all invariants hold) whose inhale duration
is zero. -/
def zeroInhaleParams : Params :=
  { defaultParams with inhale_time := 0, breath_hold := 0 }

/-- C4 counterexample: the stated invariants allow zero durations
(durations are only required to be nonnegative), and with
inhaleDurationSec = 0 the derived inhaleEnd is 0, so 0 < inhaleEnd
fails. -/
theorem c4_boundary_order_cex :
    ValidParams zeroInhaleParams ∧
    ¬(0 < (computeBounds zeroInhaleParams).inh_n) := by
  constructor
  · unfold ValidParams zeroInhaleParams defaultParams
    norm_num
  · have h : (computeBounds zeroInhaleParams).inh_n = 0 := by
      show inhEnd zeroInhaleParams = 0
      unfold inhEnd zeroInhaleParams defaultParams cTrunc
      norm_num
    rw [h]
    decide

/-- C4 (amended): for every ParameterSet satisfying the stated
invariants the derived boundaries satisfy
0 ≤ inhaleEnd ≤ holdEnd ≤ exhaleEnd ≤ cycleLength, and inhaleEnd is
strictly positive whenever sampleRate * inhaleDuration ≥ 1 (one full
sample of inhale time; with a zero inhale duration inhaleEnd = 0 is
reached, so strict positivity cannot hold in general). -/
theorem c4_boundary_order (p : Params) (hv : ValidParams p) :
    0 ≤ (computeBounds p).inh_n ∧
    (computeBounds p).inh_n ≤ (computeBounds p).hold_n ∧
    (computeBounds p).hold_n ≤ (computeBounds p).exh_n ∧
    (computeBounds p).exh_n ≤ (computeBounds p).rest_n ∧
    (1 ≤ (p.sample_rate : ℚ) * p.inhale_time →
      0 < (computeBounds p).inh_n) := by
  obtain ⟨_, _, _, _, _, _, _, _, _, _, _, _, _, hti, hth, htr, hxr, hsr⟩ := hv
  have hRq : (0 : ℚ) ≤ (p.sample_rate : ℚ) := by
    exact_mod_cast le_of_lt hsr
  have hx1 : (0 : ℚ) ≤ (p.sample_rate : ℚ) * p.inhale_time :=
    mul_nonneg hRq hti
  have hx2 : (0 : ℚ) ≤ (p.sample_rate : ℚ) * p.breath_hold :=
    mul_nonneg hRq hth
  have hx3 : (0 : ℚ) ≤ (p.sample_rate : ℚ) * p.inhale_time * p.exhale_factor :=
    mul_nonneg hx1 (le_of_lt hxr)
  have hx4 : (0 : ℚ) ≤ (p.sample_rate : ℚ) * p.breath_rest :=
    mul_nonneg hRq htr
  have hinh : 0 ≤ inhEnd p := by
    unfold inhEnd
    exact cTrunc_nonneg hx1
  have hinhq : (0 : ℚ) ≤ (inhEnd p : ℚ) := by exact_mod_cast hinh
  have hhold : inhEnd p ≤ holdEnd p := by
    unfold holdEnd
    rw [cTrunc_of_nonneg (le_add_of_nonneg_of_le hinhq hx2)]
    calc inhEnd p = ⌊(inhEnd p : ℚ)⌋ := (Int.floor_intCast _).symm
      _ ≤ ⌊(inhEnd p : ℚ) + (p.sample_rate : ℚ) * p.breath_hold⌋ :=
          Int.floor_le_floor (le_add_of_nonneg_right hx2)
  have hhold0 : 0 ≤ holdEnd p := le_trans hinh hhold
  have hholdq : (0 : ℚ) ≤ (holdEnd p : ℚ) := by exact_mod_cast hhold0
  have hexh : holdEnd p ≤ exhEnd p := by
    unfold exhEnd
    rw [cTrunc_of_nonneg (le_add_of_nonneg_of_le hholdq hx3)]
    calc holdEnd p = ⌊(holdEnd p : ℚ)⌋ := (Int.floor_intCast _).symm
      _ ≤ ⌊(holdEnd p : ℚ) +
            (p.sample_rate : ℚ) * p.inhale_time * p.exhale_factor⌋ :=
          Int.floor_le_floor (le_add_of_nonneg_right hx3)
  have hexh0 : 0 ≤ exhEnd p := le_trans hhold0 hexh
  have hexhq : (0 : ℚ) ≤ (exhEnd p : ℚ) := by exact_mod_cast hexh0
  have hrest : exhEnd p ≤ cycleLen p := by
    unfold cycleLen
    rw [cTrunc_of_nonneg (le_add_of_nonneg_of_le hexhq hx4)]
    calc exhEnd p = ⌊(exhEnd p : ℚ)⌋ := (Int.floor_intCast _).symm
      _ ≤ ⌊(exhEnd p : ℚ) + (p.sample_rate : ℚ) * p.breath_rest⌋ :=
          Int.floor_le_floor (le_add_of_nonneg_right hx4)
  refine ⟨hinh, hhold, hexh, hrest, ?_⟩
  intro h1
  show 0 < inhEnd p
  unfold inhEnd
  rw [cTrunc_of_nonneg hx1]
  have : (1 : ℤ) ≤ ⌊(p.sample_rate : ℚ) * p.inhale_time⌋ := by
    rw [Int.le_floor]
    exact_mod_cast h1
  omega

/-- C4 witness: the amended invariant instantiated at the default
configuration, whose boundaries are 52920 ≤ 57330 ≤ 126126 ≤ 148176
and strictly positive. -/
theorem c4_boundary_order_witness :
    ValidParams defaultParams ∧
    (1 ≤ (defaultParams.sample_rate : ℚ) * defaultParams.inhale_time) ∧
    0 < (computeBounds defaultParams).inh_n ∧
    (computeBounds defaultParams).inh_n ≤ (computeBounds defaultParams).hold_n := by
  have hv : ValidParams defaultParams := by
    unfold ValidParams defaultParams
    norm_num
  have h1 : (1 : ℚ) ≤ (defaultParams.sample_rate : ℚ) * defaultParams.inhale_time := by
    unfold defaultParams
    norm_num
  obtain ⟨h0, hab, _, _, hpos⟩ := c4_boundary_order defaultParams hv
  exact ⟨hv, h1, hpos h1, hab⟩

/-! ### Claim C2: the saturating sample conversion -/

/-- Rounding with ties away from zero is a nearest-integer rounding:
the rounded value is within one half of the argument. -/
theorem roundAway_nearest (x : ℚ) : |x - (roundAway x : ℚ)| ≤ 1 / 2 := by
  unfold roundAway
  rcases le_or_lt 0 x with h | h
  · rw [if_pos h, abs_le]
    constructor
    · have := Int.floor_le (x + 1 / 2)
      linarith
    · have := Int.lt_floor_add_one (x + 1 / 2)
      linarith
  · rw [if_neg (not_le.mpr h), abs_le]
    push_cast
    constructor
    · have := Int.lt_floor_add_one (-x + 1 / 2)
      linarith
    · have := Int.floor_le (-x + 1 / 2)
      linarith

/-- Bounds on the rounded scaled sample for inputs in the nominal
range. -/
theorem roundAway_scale_bound {q : ℚ} (h1 : -1 ≤ q) (h2 : q ≤ 1) :
    -32767 ≤ roundAway (q * 32767) ∧ roundAway (q * 32767) ≤ 32767 := by
  unfold roundAway
  rcases le_or_lt 0 (q * 32767) with h | h
  · rw [if_pos h]
    constructor
    · have h0 : (0 : ℤ) ≤ ⌊q * 32767 + 1 / 2⌋ :=
        Int.floor_nonneg.mpr (by linarith)
      omega
    · have : ⌊q * 32767 + 1 / 2⌋ ≤ ⌊(32767 : ℚ) + 1 / 2⌋ :=
        Int.floor_le_floor (by nlinarith)
      have he : ⌊(32767 : ℚ) + 1 / 2⌋ = 32767 := by norm_num
      omega
  · rw [if_neg (not_le.mpr h)]
    constructor
    · have : ⌊-(q * 32767) + 1 / 2⌋ ≤ ⌊(32767 : ℚ) + 1 / 2⌋ :=
        Int.floor_le_floor (by nlinarith)
      have he : ⌊(32767 : ℚ) + 1 / 2⌋ = 32767 := by norm_num
      omega
    · have h0 : (0 : ℤ) ≤ ⌊-(q * 32767) + 1 / 2⌋ :=
        Int.floor_nonneg.mpr (by linarith)
      omega

/-- C2 counterexample: floatToSigned maps -2.0 to -32767, which is
not the minimum 16-bit signed value -32768. -/
theorem c2_floatToSigned_cex :
    floatToSigned (-2) ≠ -32768 ∧ floatToSigned (-2) = -32767 := by
  have h : floatToSigned (-2) = -32767 := by
    unfold floatToSigned
    norm_num
  rw [h]
  constructor
  · decide
  · rfl

/-- C2 (amended): floatToSigned is a saturating, round-to-nearest
(ties away from zero) conversion: 1.5 maps to the maximum 16-bit
signed value 32767; -2.0 saturates to -32767, the negation of the
maximum (one above the 16-bit minimum -32768); 0 maps to 0; every
input in [-1, 1] is scaled by 32767 and rounded to the nearest
integer; and for every input the result lies in [-32767, 32767], so
the conversion never overflows. -/
theorem c2_floatToSigned_conv :
    floatToSigned 1.5 = 32767 ∧
    floatToSigned (-2) = -32767 ∧
    floatToSigned 0 = 0 ∧
    (∀ q : ℚ, -1 ≤ q → q ≤ 1 →
      floatToSigned q = roundAway (q * 32767)) ∧
    (∀ x : ℚ, |x - (roundAway x : ℚ)| ≤ 1 / 2) ∧
    (∀ q : ℚ, -32767 ≤ floatToSigned q ∧ floatToSigned q ≤ 32767) := by
  refine ⟨?_, ?_, ?_, ?_, roundAway_nearest, ?_⟩
  · unfold floatToSigned
    norm_num
  · unfold floatToSigned
    norm_num
  · unfold floatToSigned roundAway
    norm_num
  · intro q h1 h2
    unfold floatToSigned
    rw [if_neg (by exact not_lt.mpr h2), if_neg (by exact not_lt.mpr h1)]
  · intro q
    unfold floatToSigned
    rcases lt_or_le 1 q with h | h
    · rw [if_pos h]
      constructor
      · decide
      · decide
    · rw [if_neg (not_lt.mpr h)]
      rcases lt_or_le q (-1) with h2 | h2
      · rw [if_pos h2]
        constructor
        · decide
        · decide
      · rw [if_neg (not_lt.mpr h2)]
        exact roundAway_scale_bound h2 h

/-- C2 witness: the in-range conversion applied at 0.5, a tie case:
0.5 * 32767 = 16383.5 rounds away from zero to 16384. -/
theorem c2_floatToSigned_conv_witness :
    (-1 ≤ (1/2 : ℚ)) ∧ ((1/2 : ℚ) ≤ 1) ∧
    floatToSigned (1/2) = roundAway ((1/2 : ℚ) * 32767) ∧
    roundAway ((1/2 : ℚ) * 32767) = 16384 := by
  refine ⟨by norm_num, by norm_num, ?_, ?_⟩
  · exact c2_floatToSigned_conv.2.2.2.1 (1/2) (by norm_num) (by norm_num)
  · unfold roundAway
    norm_num

/-! ### Structure of the impulse thresholds -/

theorem u32ofQ_eq_floor_toNat {x : ℚ} (h0 : 0 ≤ x) (hlt : x < 2 ^ 32) :
    u32ofQ x = ⌊x⌋.toNat := by
  unfold u32ofQ
  rw [cTrunc_of_nonneg h0]
  apply Nat.mod_eq_of_lt
  have h1 : ⌊x⌋ < 2 ^ 32 := by
    rw [Int.floor_lt]
    push_cast
    exact hlt
  omega

theorem u32ofQ_cast_le {x : ℚ} (h0 : 0 ≤ x) (hlt : x < 2 ^ 32) :
    (u32ofQ x : ℚ) ≤ x := by
  rw [u32ofQ_eq_floor_toNat h0 hlt]
  have h1 : (0 : ℤ) ≤ ⌊x⌋ := Int.floor_nonneg.mpr h0
  have h2 : ((⌊x⌋.toNat : ℤ) : ℚ) ≤ x := by
    rw [Int.toNat_of_nonneg h1]
    exact Int.floor_le x
  exact_mod_cast h2

theorem le_u32ofQ {n : ℕ} {x : ℚ} (h : (n : ℚ) ≤ x) (hlt : x < 2 ^ 32) :
    n ≤ u32ofQ x := by
  have h0 : (0 : ℚ) ≤ x := le_trans (Nat.cast_nonneg n) h
  rw [u32ofQ_eq_floor_toNat h0 hlt]
  have h1 : (n : ℤ) ≤ ⌊x⌋ := Int.le_floor.mpr (by exact_mod_cast h)
  omega

theorem inhWidth_lt (p : Params) : inhWidth p < 2 ^ 32 :=
  Nat.mod_lt _ (by norm_num)

theorem exhWidth_lt (p : Params) : exhWidth p < 2 ^ 32 :=
  Nat.mod_lt _ (by norm_num)

/-- Under the spec invariants, the reverse-pulse end offset never
exceeds the forward-pulse end offset, for both phases. -/
theorem revT_le_fwdT (p : Params) (hv : ValidParams p) :
    inhRevT p ≤ inhFwdT p ∧ exhRevT p ≤ exhFwdT p := by
  obtain ⟨_, _, _, hi1, hi2, hi3, hi4, hi5, he1, he2, he3, he4, he5,
    _, _, _, _, _⟩ := hv
  constructor
  · have hwq : (inhWidth p : ℚ) < 2 ^ 32 := by
      have := inhWidth_lt p
      exact_mod_cast this
    have hw0 : (0 : ℚ) ≤ (inhWidth p : ℚ) := Nat.cast_nonneg _
    have h01 : (0 : ℚ) ≤ (inhWidth p : ℚ) * p.inh_imp_invwid :=
      mul_nonneg hw0 (le_of_lt hi1)
    have hlt1 : (inhWidth p : ℚ) * p.inh_imp_invwid < 2 ^ 32 :=
      lt_of_le_of_lt (mul_le_of_le_one_right hw0 (le_of_lt hi2)) hwq
    have hrev : (inhRevT p : ℚ) ≤ (inhWidth p : ℚ) * p.inh_imp_invwid :=
      u32ofQ_cast_le h01 hlt1
    have hlt2 : (inhRevT p : ℚ) +
        (inhWidth p : ℚ) * p.inh_imp_fwdwid < 2 ^ 32 := by
      have hsum : (inhRevT p : ℚ) + (inhWidth p : ℚ) * p.inh_imp_fwdwid ≤
          (inhWidth p : ℚ) * (p.inh_imp_invwid + p.inh_imp_fwdwid) := by
        rw [mul_add]
        exact add_le_add_right hrev _
      have hone : (inhWidth p : ℚ) * (p.inh_imp_invwid + p.inh_imp_fwdwid) ≤
          (inhWidth p : ℚ) :=
        mul_le_of_le_one_right hw0 (le_of_lt hi5)
      linarith
    exact le_u32ofQ
      (le_add_of_nonneg_right (mul_nonneg hw0 (le_of_lt hi3))) hlt2
  · have hwq : (exhWidth p : ℚ) < 2 ^ 32 := by
      have := exhWidth_lt p
      exact_mod_cast this
    have hw0 : (0 : ℚ) ≤ (exhWidth p : ℚ) := Nat.cast_nonneg _
    have h01 : (0 : ℚ) ≤ (exhWidth p : ℚ) * p.exh_imp_invwid :=
      mul_nonneg hw0 (le_of_lt he1)
    have hlt1 : (exhWidth p : ℚ) * p.exh_imp_invwid < 2 ^ 32 :=
      lt_of_le_of_lt (mul_le_of_le_one_right hw0 (le_of_lt he2)) hwq
    have hrev : (exhRevT p : ℚ) ≤ (exhWidth p : ℚ) * p.exh_imp_invwid :=
      u32ofQ_cast_le h01 hlt1
    have hlt2 : (exhRevT p : ℚ) +
        (exhWidth p : ℚ) * p.exh_imp_fwdwid < 2 ^ 32 := by
      have hsum : (exhRevT p : ℚ) + (exhWidth p : ℚ) * p.exh_imp_fwdwid ≤
          (exhWidth p : ℚ) * (p.exh_imp_invwid + p.exh_imp_fwdwid) := by
        rw [mul_add]
        exact add_le_add_right hrev _
      have hone : (exhWidth p : ℚ) * (p.exh_imp_invwid + p.exh_imp_fwdwid) ≤
          (exhWidth p : ℚ) :=
        mul_le_of_le_one_right hw0 (le_of_lt he5)
      linarith
    exact le_u32ofQ
      (le_add_of_nonneg_right (mul_nonneg hw0 (le_of_lt he3))) hlt2

/-! ### Claim C1: the three-segment impulse waveform -/

/-- C1: during an active phase the raw impulse sample is the
three-segment waveform over the phase impulse cycle, as a function of
the post-reset impulse position q: q = 0 gives 0; q in (0, reverseEnd)
gives -inhaleAmplitude during INHALE and +exhaleAmplitude during
EXHALE; q in [reverseEnd, forwardEnd) gives +inhaleAmplitude during
INHALE and -exhaleAmplitude during EXHALE; q ≥ forwardEnd gives 0. -/
theorem c1_impulse_waveform (p : Params) (hv : ValidParams p)
    (cyc imp : ℕ) :
    (phase (computeBounds p) cyc = Phase.INHALE →
      (effImp (computeCache p) (computeBounds p) cyc imp = 0 →
        rawSample p (computeCache p) (computeBounds p) cyc imp = 0) ∧
      (0 < effImp (computeCache p) (computeBounds p) cyc imp →
        effImp (computeCache p) (computeBounds p) cyc imp <
          (computeCache p).inhRev →
        rawSample p (computeCache p) (computeBounds p) cyc imp =
          -p.inh_ampl) ∧
      (0 < effImp (computeCache p) (computeBounds p) cyc imp →
        (computeCache p).inhRev ≤
          effImp (computeCache p) (computeBounds p) cyc imp →
        effImp (computeCache p) (computeBounds p) cyc imp <
          (computeCache p).inhFwd →
        rawSample p (computeCache p) (computeBounds p) cyc imp =
          p.inh_ampl) ∧
      ((computeCache p).inhFwd ≤
          effImp (computeCache p) (computeBounds p) cyc imp →
        rawSample p (computeCache p) (computeBounds p) cyc imp = 0)) ∧
    (phase (computeBounds p) cyc = Phase.EXHALE →
      (effImp (computeCache p) (computeBounds p) cyc imp = 0 →
        rawSample p (computeCache p) (computeBounds p) cyc imp = 0) ∧
      (0 < effImp (computeCache p) (computeBounds p) cyc imp →
        effImp (computeCache p) (computeBounds p) cyc imp <
          (computeCache p).exhRev →
        rawSample p (computeCache p) (computeBounds p) cyc imp =
          p.exh_ampl) ∧
      (0 < effImp (computeCache p) (computeBounds p) cyc imp →
        (computeCache p).exhRev ≤
          effImp (computeCache p) (computeBounds p) cyc imp →
        effImp (computeCache p) (computeBounds p) cyc imp <
          (computeCache p).exhFwd →
        rawSample p (computeCache p) (computeBounds p) cyc imp =
          -p.exh_ampl) ∧
      ((computeCache p).exhFwd ≤
          effImp (computeCache p) (computeBounds p) cyc imp →
        rawSample p (computeCache p) (computeBounds p) cyc imp = 0)) := by
  obtain ⟨hrf_inh, hrf_exh⟩ := revT_le_fwdT p hv
  have hrf_inh' : (computeCache p).inhRev ≤ (computeCache p).inhFwd := hrf_inh
  have hrf_exh' : (computeCache p).exhRev ≤ (computeCache p).exhFwd := hrf_exh
  constructor
  · intro hph
    simp only [rawSample, hph]
    refine ⟨?_, ?_, ?_, ?_⟩
    · intro hq
      rw [if_pos hq]
    · intro hq0 hqr
      rw [if_neg (Nat.pos_iff_ne_zero.mp hq0), if_pos hqr]
    · intro hq0 hqr hqf
      rw [if_neg (Nat.pos_iff_ne_zero.mp hq0), if_neg (not_lt.mpr hqr),
        if_pos hqf]
    · intro hqf
      by_cases hq : effImp (computeCache p) (computeBounds p) cyc imp = 0
      · rw [if_pos hq]
      · rw [if_neg hq, if_neg (not_lt.mpr (le_trans hrf_inh' hqf)),
          if_neg (not_lt.mpr hqf)]
  · intro hph
    simp only [rawSample, hph]
    refine ⟨?_, ?_, ?_, ?_⟩
    · intro hq
      rw [if_pos hq]
    · intro hq0 hqr
      rw [if_neg (Nat.pos_iff_ne_zero.mp hq0), if_pos hqr]
    · intro hq0 hqr hqf
      rw [if_neg (Nat.pos_iff_ne_zero.mp hq0), if_neg (not_lt.mpr hqr),
        if_pos hqf]
    · intro hqf
      by_cases hq : effImp (computeCache p) (computeBounds p) cyc imp = 0
      · rw [if_pos hq]
      · rw [if_neg hq, if_neg (not_lt.mpr (le_trans hrf_exh' hqf)),
          if_neg (not_lt.mpr hqf)]

/-- C1 witness: the default configuration at cycle position 5
(INHALE) and impulse position 100 (inside the reverse pulse, since
reverseEnd = 294) yields -inhaleAmplitude = -0.2. -/
theorem c1_impulse_waveform_witness :
    ValidParams defaultParams ∧
    phase (computeBounds defaultParams) 5 = Phase.INHALE ∧
    0 < effImp (computeCache defaultParams) (computeBounds defaultParams)
      5 100 ∧
    effImp (computeCache defaultParams) (computeBounds defaultParams)
      5 100 < (computeCache defaultParams).inhRev ∧
    rawSample defaultParams (computeCache defaultParams)
      (computeBounds defaultParams) 5 100 = -defaultParams.inh_ampl ∧
    -defaultParams.inh_ampl = -(1/5 : ℚ) := by
  have hv : ValidParams defaultParams := by
    unfold ValidParams defaultParams
    norm_num
  have hph : phase (computeBounds defaultParams) 5 = Phase.INHALE := by
    rw [defaultBounds_eval]
    unfold phase toU32
    norm_num
  have heff : effImp (computeCache defaultParams)
      (computeBounds defaultParams) 5 100 = 100 := by
    unfold effImp
    rw [hph, defaultCache_eval]
    decide
  have hrev : (computeCache defaultParams).inhRev = 294 :=
    congrArg Cache.inhRev defaultCache_eval
  refine ⟨hv, hph, ?_, ?_, ?_, ?_⟩
  · rw [heff]
    decide
  · rw [heff, hrev]
    decide
  · exact ((c1_impulse_waveform defaultParams hv 5 100).1 hph).2.1
      (by rw [heff]; decide) (by rw [heff, hrev]; decide)
  · unfold defaultParams
    norm_num

/-! ### Projections of one loop iteration -/

theorem tick_configUpdate {σ : Type} (env : ℚ → ℚ) (filt : σ → ℚ → σ × ℚ)
    (p : Params) (s : PurrState σ) :
    (tick env filt p s).configUpdate = s.configUpdate := rfl

theorem tick_cache {σ : Type} (env : ℚ → ℚ) (filt : σ → ℚ → σ × ℚ)
    (p : Params) (s : PurrState σ) :
    (tick env filt p s).cache =
      (if s.configUpdate then computeCache p else s.cache) := rfl

theorem tick_imp {σ : Type} (env : ℚ → ℚ) (filt : σ → ℚ → σ × ℚ)
    (p : Params) (s : PurrState σ) :
    (tick env filt p s).imp =
      (effImp (if s.configUpdate then computeCache p else s.cache)
        (computeBounds p) s.cyc s.imp + 1) % 2 ^ 32 := rfl

theorem tick_cyc {σ : Type} (env : ℚ → ℚ) (filt : σ → ℚ → σ × ℚ)
    (p : Params) (s : PurrState σ) :
    (tick env filt p s).cyc =
      (if toU32 (computeBounds p).rest_n ≤ (s.cyc + 1) % 2 ^ 32 then 0
       else (s.cyc + 1) % 2 ^ 32) := rfl

theorem tick_first {σ : Type} (env : ℚ → ℚ) (filt : σ → ℚ → σ × ℚ)
    (p : Params) (s : PurrState σ) :
    (tick env filt p s).first = false := rfl

theorem tick_latched {σ : Type} (env : ℚ → ℚ) (filt : σ → ℚ → σ × ℚ)
    (p : Params) (s : PurrState σ) :
    (tick env filt p s).latched = (consumeGate s).1 := rfl

theorem tick_toggle {σ : Type} (env : ℚ → ℚ) (filt : σ → ℚ → σ × ℚ)
    (p : Params) (s : PurrState σ) :
    (tick env filt p s).toggle = (consumeGate s).2 := rfl

theorem tick_progress {σ : Type} (env : ℚ → ℚ) (filt : σ → ℚ → σ × ℚ)
    (p : Params) (s : PurrState σ) :
    (tick env filt p s).progress =
      newProgress (computeBounds p) s.cyc s.progress := rfl

theorem tick_fstate {σ : Type} (env : ℚ → ℚ) (filt : σ → ℚ → σ × ℚ)
    (p : Params) (s : PurrState σ) :
    (tick env filt p s).fstate =
      (filt s.fstate
        (rawSample p (if s.configUpdate then computeCache p else s.cache)
            (computeBounds p) s.cyc s.imp *
          env (newProgress (computeBounds p) s.cyc s.progress))).1 := rfl

theorem tickOut_eq {σ : Type} (env : ℚ → ℚ) (filt : σ → ℚ → σ × ℚ)
    (p : Params) (s : PurrState σ) :
    tickOut env filt p s =
      (if (consumeGate s).1 then
        (floatToSigned (filt s.fstate
            (rawSample p (if s.configUpdate then computeCache p else s.cache)
                (computeBounds p) s.cyc s.imp *
              env (newProgress (computeBounds p) s.cyc s.progress))).2,
         floatToSigned (filt s.fstate
            (rawSample p (if s.configUpdate then computeCache p else s.cache)
                (computeBounds p) s.cyc s.imp *
              env (newProgress (computeBounds p) s.cyc s.progress))).2)
       else (0, 0)) := rfl

theorem consumeGate_of_cyc_ne {σ : Type} (s : PurrState σ)
    (h : s.cyc ≠ 0) : consumeGate s = (s.latched, s.toggle) := by
  unfold consumeGate
  rw [if_neg]
  intro hc
  exact h hc.1

theorem consumeGate_at_wrap {σ : Type} (s : PurrState σ)
    (hc : s.cyc = 0) (hf : s.first = false) :
    consumeGate s = (if s.toggle then !s.latched else s.latched, false) := by
  unfold consumeGate
  rw [if_pos ⟨hc, hf⟩]

theorem requestToggle_fields {σ : Type} (s : PurrState σ) :
    (requestToggle s).cyc = s.cyc ∧ (requestToggle s).first = s.first ∧
    (requestToggle s).latched = s.latched ∧
    (requestToggle s).toggle = true ∧
    (requestToggle s).configUpdate = s.configUpdate := by
  unfold requestToggle
  exact ⟨rfl, rfl, rfl, rfl, rfl⟩

/-! ### Claim C7: the impulse-position counter discipline -/

theorem effImp_le (c : Cache) (b : Bounds) (cyc imp : ℕ) :
    effImp c b cyc imp ≤ imp := by
  unfold effImp
  split
  · split_ifs <;> omega
  · split_ifs <;> omega
  · omega

/-- C7: the impulse position counter is advanced on every tick in
every phase: the new value is one more than the post-reset value,
where the reset to 0 happens exactly when the counter has reached the
impulse width of the current phase (inhale width during INHALE, exhale
width during EXHALE) and never during HOLD or REST; in particular a
HOLD tick always yields imp + 1, so the tick entering EXHALE sees
whatever value HOLD left behind. -/
theorem c7_impulse_counter {σ : Type} (env : ℚ → ℚ)
    (filt : σ → ℚ → σ × ℚ) (p : Params) (s : PurrState σ)
    (hcfg : s.configUpdate = true) (himp : s.imp + 1 < 2 ^ 32) :
    (tick env filt p s).imp =
      effImp (computeCache p) (computeBounds p) s.cyc s.imp + 1 ∧
    (phase (computeBounds p) s.cyc = Phase.HOLD ∨
        phase (computeBounds p) s.cyc = Phase.REST →
      (tick env filt p s).imp = s.imp + 1) ∧
    (phase (computeBounds p) s.cyc = Phase.INHALE →
      s.imp < (computeCache p).inhW →
      (tick env filt p s).imp = s.imp + 1) ∧
    (phase (computeBounds p) s.cyc = Phase.INHALE →
      (computeCache p).inhW ≤ s.imp →
      (tick env filt p s).imp = 1) ∧
    (phase (computeBounds p) s.cyc = Phase.EXHALE →
      s.imp < (computeCache p).exhW →
      (tick env filt p s).imp = s.imp + 1) ∧
    (phase (computeBounds p) s.cyc = Phase.EXHALE →
      (computeCache p).exhW ≤ s.imp →
      (tick env filt p s).imp = 1) := by
  have hmain : (tick env filt p s).imp =
      effImp (computeCache p) (computeBounds p) s.cyc s.imp + 1 := by
    rw [tick_imp, hcfg]
    simp only [if_true]
    apply Nat.mod_eq_of_lt
    have := effImp_le (computeCache p) (computeBounds p) s.cyc s.imp
    omega
  refine ⟨hmain, ?_, ?_, ?_, ?_, ?_⟩
  · intro hph
    rw [hmain]
    rcases hph with h | h <;> simp only [effImp, h]
  · intro hph hlt
    rw [hmain]
    simp only [effImp, hph]
    rw [if_neg (not_le.mpr hlt)]
  · intro hph hge
    rw [hmain]
    simp only [effImp, hph]
    rw [if_pos hge]
  · intro hph hlt
    rw [hmain]
    simp only [effImp, hph]
    rw [if_neg (not_le.mpr hlt)]
  · intro hph hge
    rw [hmain]
    simp only [effImp, hph]
    rw [if_pos hge]

/-- Fixed envelope function used by the concrete witnesses. -/
def envW : ℚ → ℚ := fun q => q

/-- Fixed filter step (a running sum) used by the concrete witnesses:
the state accumulates the input and is also returned as output. -/
def filtW : ℚ → ℚ → ℚ × ℚ := fun st x => (st + x, st + x)

/-- A mid-HOLD state of the default configuration: cycle position
53000 lies in [52920, 57330), and the impulse position 1700 already
exceeds the inhale impulse width 1470. -/
def holdState : PurrState ℚ :=
  ⟨true, ⟨0, 0, 0, 0, 0, 0⟩, 1700, 53000, 0, false, false, false, 0, 0⟩

/-- C7 witness: during HOLD the counter is not reset even though it
exceeds the inhale impulse width: 1700 becomes 1701. -/
theorem c7_impulse_counter_witness :
    holdState.configUpdate = true ∧
    holdState.imp + 1 < 2 ^ 32 ∧
    phase (computeBounds defaultParams) holdState.cyc = Phase.HOLD ∧
    (tick envW filtW defaultParams holdState).imp = holdState.imp + 1 := by
  have hph : phase (computeBounds defaultParams) holdState.cyc =
      Phase.HOLD := by
    rw [defaultBounds_eval]
    unfold phase toU32 holdState
    norm_num
  refine ⟨rfl, by decide, hph, ?_⟩
  exact (c7_impulse_counter envW filtW defaultParams holdState rfl
    (by decide)).2.1 (Or.inl hph)

/-! ### Claim C8: HOLD and REST feed exactly 0 to the filter -/

/-- C8: on every HOLD or REST tick the raw impulse sample is 0, the
product with any envelope gain (stale or arbitrary) is still 0, and
the value passed to the vocal tract filter is exactly 0. -/
theorem c8_silent_phases {σ : Type} (env : ℚ → ℚ)
    (filt : σ → ℚ → σ × ℚ) (p : Params) (s : PurrState σ)
    (hcfg : s.configUpdate = true)
    (hph : phase (computeBounds p) s.cyc = Phase.HOLD ∨
      phase (computeBounds p) s.cyc = Phase.REST) :
    rawSample p (computeCache p) (computeBounds p) s.cyc s.imp = 0 ∧
    (∀ g : ℚ,
      rawSample p (computeCache p) (computeBounds p) s.cyc s.imp * g = 0) ∧
    (tick env filt p s).fstate = (filt s.fstate 0).1 := by
  have hraw : rawSample p (computeCache p) (computeBounds p) s.cyc s.imp
      = 0 := by
    rcases hph with h | h <;> simp only [rawSample, h]
  refine ⟨hraw, ?_, ?_⟩
  · intro g
    rw [hraw, zero_mul]
  · rw [tick_fstate, hcfg]
    simp only [if_true]
    rw [hraw, zero_mul]

/-- C8 witness: at the mid-HOLD state the raw sample is 0 and the
filter state after the tick equals the filter applied to 0 (with the
running-sum filter, the state stays 0). -/
theorem c8_silent_phases_witness :
    holdState.configUpdate = true ∧
    phase (computeBounds defaultParams) holdState.cyc = Phase.HOLD ∧
    rawSample defaultParams (computeCache defaultParams)
      (computeBounds defaultParams) holdState.cyc holdState.imp = 0 ∧
    (tick envW filtW defaultParams holdState).fstate =
      (filtW holdState.fstate 0).1 := by
  have hph : phase (computeBounds defaultParams) holdState.cyc =
      Phase.HOLD := by
    rw [defaultBounds_eval]
    unfold phase toU32 holdState
    norm_num
  have h := c8_silent_phases envW filtW defaultParams holdState rfl
    (Or.inl hph)
  exact ⟨rfl, hph, h.1, h.2.2⟩

/-! ### Claim C9: the derived timing cache is always fresh -/

/-- C9: the dirty flag starts true, no tick ever clears it, and on
every tick taken from a dirty-flagged state the static cache is
recomputed from the current ParameterSet before use, so the tick
coincides with the always-fresh variant of the loop body. -/
theorem c9_always_fresh {σ : Type} (f0 : σ) :
    (initState f0).configUpdate = true ∧
    ∀ (env : ℚ → ℚ) (filt : σ → ℚ → σ × ℚ) (p : Params)
      (s : PurrState σ),
      (tick env filt p s).configUpdate = s.configUpdate ∧
      (s.configUpdate = true →
        (tick env filt p s).cache = computeCache p ∧
        tick env filt p s = tickFresh env filt p s) := by
  refine ⟨rfl, ?_⟩
  intro env filt p s
  refine ⟨rfl, ?_⟩
  intro hcfg
  constructor
  · rw [tick_cache, hcfg]
    simp only [if_true]
  · cases s with
    | mk cu ca im cy yl fi la tg pr fs =>
      simp only at hcfg
      subst hcfg
      rfl

/-- C9 witness: from the initial state (dirty flag set) the cache
after one tick is the one derived from the default parameters, and
the tick agrees with the always-fresh loop body. -/
theorem c9_always_fresh_witness :
    (initState (0 : ℚ)).configUpdate = true ∧
    (tick envW filtW defaultParams (initState (0 : ℚ))).cache =
      computeCache defaultParams ∧
    tick envW filtW defaultParams (initState (0 : ℚ)) =
      tickFresh envW filtW defaultParams (initState (0 : ℚ)) := by
  have h := c9_always_fresh (0 : ℚ)
  have h2 := (h.2 envW filtW defaultParams (initState (0 : ℚ))).2 rfl
  exact ⟨h.1, h2.1, h2.2⟩

/-! ### Claim C10: startup is muted until the first consumed toggle -/

/-- C10: the gate starts unlatched with no pending request, and every
tick taken from an unlatched state that does not consume a pending
toggle (that is, not a non-first tick at cycle position 0 with the
toggle flag set) emits the silent pair (0, 0) on both channels,
whatever the synthesized sample is, and leaves the gate unlatched.
Hence the output is silent from the first tick until the first cycle
wrap that consumes a pending toggle request. -/
theorem c10_startup_muted {σ : Type} (f0 : σ) :
    (initState f0).latched = false ∧
    (initState f0).toggle = false ∧
    ∀ (env : ℚ → ℚ) (filt : σ → ℚ → σ × ℚ) (p : Params)
      (s : PurrState σ),
      s.latched = false →
      ¬(s.cyc = 0 ∧ s.first = false ∧ s.toggle = true) →
      tickOut env filt p s = (0, 0) ∧
      (tick env filt p s).latched = false := by
  refine ⟨rfl, rfl, ?_⟩
  intro env filt p s hla hnc
  have hg : (consumeGate s).1 = false := by
    unfold consumeGate
    by_cases h : s.cyc = 0 ∧ s.first = false
    · rw [if_pos h]
      cases ht : s.toggle with
      | false => simp only [Bool.false_eq_true, if_false]; exact hla
      | true => exact absurd ⟨h.1, h.2, ht⟩ hnc
    · rw [if_neg h]
      exact hla
  constructor
  · rw [tickOut_eq, hg]
    simp only [Bool.false_eq_true, if_false]
  · rw [tick_latched, hg]

/-- C10 witness: the very first tick from the initial state (cycle
position 0 but first-iteration flag set, no pending toggle) emits
silence and stays unlatched. -/
theorem c10_startup_muted_witness :
    (initState (0 : ℚ)).latched = false ∧
    ¬((initState (0 : ℚ)).cyc = 0 ∧ (initState (0 : ℚ)).first = false ∧
      (initState (0 : ℚ)).toggle = true) ∧
    tickOut envW filtW defaultParams (initState (0 : ℚ)) = (0, 0) ∧
    (tick envW filtW defaultParams (initState (0 : ℚ))).latched = false := by
  have h := (c10_startup_muted (0 : ℚ)).2.2 envW filtW defaultParams
    (initState (0 : ℚ)) rfl (by decide)
  exact ⟨rfl, by decide, h.1, h.2⟩

/-! ### Claim C6: muting is purely an output-stage gate -/

/-- The state with the latched gate bit blanked, used to compare runs
that differ only in the gate state. -/
def eraseLatched {σ : Type} (s : PurrState σ) : PurrState σ :=
  { s with latched := false }

theorem eraseLatched_tick_mk {σ : Type} (env : ℚ → ℚ)
    (filt : σ → ℚ → σ × ℚ) (p : Params) (cu : Bool) (ca : Cache)
    (im cy : ℕ) (yl : ℤ) (fi la1 la2 tg : Bool) (pr : ℚ) (fs : σ) :
    eraseLatched (tick env filt p ⟨cu, ca, im, cy, yl, fi, la1, tg, pr, fs⟩) =
    eraseLatched (tick env filt p ⟨cu, ca, im, cy, yl, fi, la2, tg, pr, fs⟩) := by
  simp only [eraseLatched, tick, tickFull, consumeGate]
  by_cases h : cy = 0 ∧ fi = false
  · simp only [if_pos h]
  · simp only [if_neg h]

theorem eraseLatched_step {σ : Type} (env : ℚ → ℚ)
    (filt : σ → ℚ → σ × ℚ) (p : Params) (s₁ s₂ : PurrState σ) (r : Bool)
    (h : eraseLatched s₁ = eraseLatched s₂) :
    eraseLatched (step env filt p s₁ r) =
      eraseLatched (step env filt p s₂ r) := by
  cases s₁ with
  | mk cu1 ca1 im1 cy1 yl1 fi1 la1 tg1 pr1 fs1 =>
    cases s₂ with
    | mk cu2 ca2 im2 cy2 yl2 fi2 la2 tg2 pr2 fs2 =>
      simp only [eraseLatched, PurrState.mk.injEq] at h
      obtain ⟨h1, h2, h3, h4, h5, h6, -, h8, h9, h10⟩ := h
      subst h1 h2 h3 h4 h5 h6 h8 h9 h10
      cases r with
      | false =>
        simp only [step, Bool.false_eq_true, if_false]
        exact eraseLatched_tick_mk env filt p _ _ _ _ _ _ _ _ _ _ _
      | true =>
        simp only [step, if_true, requestToggle]
        exact eraseLatched_tick_mk env filt p _ _ _ _ _ _ _ _ _ _ _

theorem eraseLatched_foldl {σ : Type} (env : ℚ → ℚ)
    (filt : σ → ℚ → σ × ℚ) (p : Params) (rs : List Bool) :
    ∀ (s₁ s₂ : PurrState σ), eraseLatched s₁ = eraseLatched s₂ →
      eraseLatched (rs.foldl (step env filt p) s₁) =
        eraseLatched (rs.foldl (step env filt p) s₂) := by
  induction rs with
  | nil => intro s₁ s₂ h; exact h
  | cons r rest ih =>
    intro s₁ s₂ h
    simp only [List.foldl_cons]
    exact ih _ _ (eraseLatched_step env filt p s₁ s₂ r h)

theorem fstate_eraseLatched {σ : Type} (s : PurrState σ) :
    (eraseLatched s).fstate = s.fstate := rfl

/-- C6: muting is purely an output-stage gate.  First, the filter
state after any sequence of loop iterations (with arbitrary
interleaved toggle requests) is the same whatever the initial gate
bit: the filter always runs on the real enveloped sample.  Second, on
every single tick the filter state advances by filtering the real
(non-silenced) shaped sample, independent of the gate.  Third, when
the gate is unlatched after the cycle-complete block only the emitted
pair is replaced by silence on both channels. -/
theorem c6_mute_output_gate {σ : Type} (env : ℚ → ℚ)
    (filt : σ → ℚ → σ × ℚ) (p : Params) :
    (∀ (rs : List Bool) (s : PurrState σ) (b : Bool),
      (rs.foldl (step env filt p) { s with latched := b }).fstate =
        (rs.foldl (step env filt p) s).fstate) ∧
    (∀ s : PurrState σ, s.configUpdate = true →
      (tick env filt p s).fstate =
        (filt s.fstate
          (rawSample p (computeCache p) (computeBounds p) s.cyc s.imp *
            env (newProgress (computeBounds p) s.cyc s.progress))).1) ∧
    (∀ s : PurrState σ, (consumeGate s).1 = false →
      tickOut env filt p s = (0, 0)) := by
  refine ⟨?_, ?_, ?_⟩
  · intro rs s b
    have h : eraseLatched ({ s with latched := b } : PurrState σ) =
        eraseLatched s := by
      cases s
      rfl
    have h2 := eraseLatched_foldl env filt p rs _ _ h
    calc (rs.foldl (step env filt p) { s with latched := b }).fstate
        = (eraseLatched
            (rs.foldl (step env filt p) { s with latched := b })).fstate :=
          rfl
      _ = (eraseLatched (rs.foldl (step env filt p) s)).fstate := by rw [h2]
      _ = (rs.foldl (step env filt p) s).fstate := rfl
  · intro s hcfg
    rw [tick_fstate, hcfg]
    simp only [if_true]
  · intro s hg
    rw [tickOut_eq, hg]
    simp only [Bool.false_eq_true, if_false]

/-- C6 witness: two copies of a concrete mid-INHALE state differing
only in the gate bit have equal filter state after two iterations,
the muted copy emits silence, and the tick filters the real shaped
sample. -/
theorem c6_mute_output_gate_witness :
    (([true, false] : List Bool).foldl (step envW filtW defaultParams)
        { holdState with latched := true }).fstate =
      (([true, false] : List Bool).foldl (step envW filtW defaultParams)
        holdState).fstate ∧
    (consumeGate holdState).1 = false ∧
    tickOut envW filtW defaultParams holdState = (0, 0) ∧
    holdState.configUpdate = true ∧
    (tick envW filtW defaultParams holdState).fstate =
      (filtW holdState.fstate
        (rawSample defaultParams (computeCache defaultParams)
            (computeBounds defaultParams) holdState.cyc holdState.imp *
          envW (newProgress (computeBounds defaultParams) holdState.cyc
            holdState.progress))).1 := by
  have h := c6_mute_output_gate envW filtW defaultParams (σ := ℚ)
  have hg : (consumeGate holdState).1 = false := by
    unfold consumeGate holdState
    norm_num
  exact ⟨h.1 [true, false] holdState true, hg, h.2.2 holdState hg, rfl,
    h.2.1 holdState rfl⟩

/-! ### Claim C5: toggle requests collapse to one flip per cycle wrap -/

theorem toU32_lt (z : ℤ) : toU32 z < 2 ^ 32 := by
  unfold toU32
  have h1 : z % 2 ^ 32 < 2 ^ 32 := Int.emod_lt_of_pos z (by norm_num)
  have h2 : 0 ≤ z % 2 ^ 32 := Int.emod_nonneg z (by norm_num)
  omega

/-- Running the loop from a mid-cycle state up to (but not past) the
next cycle wrap never touches the latched gate bit, accumulates the
toggle requests into the pending flag, and advances the cycle counter
to the wrap. -/
theorem run_within_cycle {σ : Type} (env : ℚ → ℚ)
    (filt : σ → ℚ → σ × ℚ) (p : Params) :
    ∀ (rs : List Bool) (s : PurrState σ),
      s.first = false → 0 < s.cyc →
      s.cyc < toU32 (computeBounds p).rest_n →
      s.cyc + rs.length ≤ toU32 (computeBounds p).rest_n →
      (rs.foldl (step env filt p) s).first = false ∧
      (rs.foldl (step env filt p) s).latched = s.latched ∧
      (rs.foldl (step env filt p) s).toggle = (s.toggle || rs.any id) ∧
      (rs.foldl (step env filt p) s).cyc =
        (if s.cyc + rs.length = toU32 (computeBounds p).rest_n then 0
         else s.cyc + rs.length) := by
  intro rs
  induction rs with
  | nil =>
    intro s hf h0 hL hlen
    refine ⟨hf, rfl, by simp, ?_⟩
    simp only [List.foldl_nil, List.length_nil, Nat.add_zero]
    rw [if_neg (Nat.ne_of_lt hL)]
  | cons r rest ih =>
    intro s hf h0 hL hlen
    have hwl : toU32 (computeBounds p).rest_n < 2 ^ 32 := toU32_lt _
    have hc1 : s.cyc + 1 < 2 ^ 32 := by omega
    have hmod : (s.cyc + 1) % 2 ^ 32 = s.cyc + 1 := Nat.mod_eq_of_lt hc1
    set s' := if r then requestToggle s else s with hs'
    have hs'cyc : s'.cyc = s.cyc := by
      cases r <;> simp [hs', requestToggle]
    have hs'first : s'.first = false := by
      cases r <;> simp [hs', requestToggle, hf]
    have hs'lat : s'.latched = s.latched := by
      cases r <;> simp [hs', requestToggle]
    have hs'tog : s'.toggle = (s.toggle || r) := by
      cases r <;> simp [hs', requestToggle]
    have hg : consumeGate s' = (s'.latched, s'.toggle) :=
      consumeGate_of_cyc_ne s' (by rw [hs'cyc]; omega)
    have hstep_lat : (step env filt p s r).latched = s.latched := by
      simp only [step]
      rw [← hs', tick_latched, hg, hs'lat]
    have hstep_tog : (step env filt p s r).toggle = (s.toggle || r) := by
      simp only [step]
      rw [← hs', tick_toggle, hg, hs'tog]
    have hstep_first : (step env filt p s r).first = false := rfl
    have hstep_cyc : (step env filt p s r).cyc =
        (if toU32 (computeBounds p).rest_n ≤ s.cyc + 1 then 0
         else s.cyc + 1) := by
      simp only [step]
      rw [← hs', tick_cyc, hs'cyc, hmod]
    simp only [List.foldl_cons, List.length_cons]
    by_cases hend : s.cyc + 1 = toU32 (computeBounds p).rest_n
    · have hrl : rest.length = 0 := by
        simp only [List.length_cons] at hlen
        omega
      have hrest : rest = [] := List.length_eq_zero.mp hrl
      subst hrest
      simp only [List.foldl_nil]
      refine ⟨hstep_first, hstep_lat, ?_, ?_⟩
      · rw [hstep_tog]
        simp
      · rw [hstep_cyc, if_pos (le_of_eq hend.symm)]
        have hc : s.cyc + (List.length ([] : List Bool) + 1) =
            toU32 (computeBounds p).rest_n := by
          simp only [List.length_nil]
          omega
        rw [if_pos hc]
    · have hlt : s.cyc + 1 < toU32 (computeBounds p).rest_n := by
        simp only [List.length_cons] at hlen
        omega
      have hcyc1 : (step env filt p s r).cyc = s.cyc + 1 := by
        rw [hstep_cyc, if_neg (not_le.mpr hlt)]
      obtain ⟨i1, i2, i3, i4⟩ := ih (step env filt p s r) hstep_first
        (by rw [hcyc1]; omega) (by rw [hcyc1]; exact hlt)
        (by rw [hcyc1]; simp only [List.length_cons] at hlen; omega)
      refine ⟨i1, ?_, ?_, ?_⟩
      · rw [i2, hstep_lat]
      · rw [i3, hstep_tog]
        cases s.toggle <;> cases r <;> simp
      · rw [i4, hcyc1]
        have harith : s.cyc + 1 + rest.length = s.cyc + (rest.length + 1) := by
          omega
        rw [harith]

/-- C5: the latched gate bit can change only on an iteration whose
cycle position is 0; and starting anywhere strictly inside a cycle,
any number of toggle requests delivered before the wrap leave the gate
untouched on every intermediate iteration, the cycle counter reaches
the wrap, and the single iteration at the wrap flips the gate exactly
once if and only if at least one request (or an earlier pending one)
accumulated - so e.g. three requests within one cycle produce exactly
one flip, applied at the next wrap. -/
theorem c5_toggle_collapse {σ : Type} (env : ℚ → ℚ)
    (filt : σ → ℚ → σ × ℚ) (p : Params) (s : PurrState σ)
    (hf : s.first = false) (h0 : 0 < s.cyc)
    (hL : s.cyc < toU32 (computeBounds p).rest_n)
    (rs : List Bool)
    (hlen : s.cyc + rs.length = toU32 (computeBounds p).rest_n) :
    (∀ (t : PurrState σ) (r : Bool),
      (step env filt p t r).latched ≠ t.latched → t.cyc = 0) ∧
    (∀ k, k ≤ rs.length →
      ((rs.take k).foldl (step env filt p) s).latched = s.latched) ∧
    (rs.foldl (step env filt p) s).cyc = 0 ∧
    (tick env filt p (rs.foldl (step env filt p) s)).latched =
      Bool.xor (s.toggle || rs.any id) s.latched := by
  refine ⟨?_, ?_, ?_, ?_⟩
  · intro t r hne
    by_contra hc
    apply hne
    have hg : consumeGate (if r then requestToggle t else t) =
        ((if r then requestToggle t else t).latched,
         (if r then requestToggle t else t).toggle) := by
      apply consumeGate_of_cyc_ne
      cases r <;> simp [requestToggle, hc]
    simp only [step]
    rw [tick_latched, hg]
    cases r <;> simp [requestToggle]
  · intro k hk
    have h := run_within_cycle env filt p (rs.take k) s hf h0 hL
      (by rw [List.length_take]; omega)
    exact h.2.1
  · have h := run_within_cycle env filt p rs s hf h0 hL (le_of_eq hlen)
    rw [h.2.2.2, if_pos hlen]
  · obtain ⟨i1, i2, i3, i4⟩ := run_within_cycle env filt p rs s hf h0 hL
      (le_of_eq hlen)
    have hcyc0 : (rs.foldl (step env filt p) s).cyc = 0 := by
      rw [i4, if_pos hlen]
    have hg := consumeGate_at_wrap (rs.foldl (step env filt p) s) hcyc0 i1
    rw [tick_latched, hg, i2, i3]
    cases h1 : (s.toggle || rs.any id) <;> cases h2 : s.latched <;> rfl

/-- A miniature configuration with a 4-sample breath cycle
(inhaleEnd 1, holdEnd 2, exhaleEnd 3, cycleLength 4), used to
exercise a full cycle concretely. -/
def pW : Params where
  inh_ampl := 1
  exh_ampl := 1
  inh_imp_freq := 2
  inh_imp_invwid := 1/2
  inh_imp_fwdwid := 1/4
  exh_imp_freq := 2
  exh_imp_invwid := 1/2
  exh_imp_fwdwid := 1/4
  vocal_cutoff_freq := 180
  inhale_time := 1/4
  exhale_factor := 1
  breath_hold := 1/4
  breath_rest := 1/4
  sample_rate := 4

/-- A state one sample into the miniature cycle, past the first wrap,
with no pending request and the gate unlatched. -/
def sW : PurrState ℚ :=
  ⟨true, ⟨0, 0, 0, 0, 0, 0⟩, 0, 1, 0, false, false, false, 0, 0⟩

theorem pW_bounds : computeBounds pW = ⟨1, 2, 3, 4⟩ := by
  have h1 : inhEnd pW = 1 := by
    unfold inhEnd pW cTrunc
    norm_num
  have h2 : holdEnd pW = 2 := by
    unfold holdEnd
    rw [h1]
    unfold pW cTrunc
    norm_num
  have h3 : exhEnd pW = 3 := by
    unfold exhEnd
    rw [h2]
    unfold pW cTrunc
    norm_num
  have h4 : cycleLen pW = 4 := by
    unfold cycleLen
    rw [h3]
    unfold pW cTrunc
    norm_num
  unfold computeBounds
  rw [h1, h2, h3, h4]

/-- C5 witness: three toggle requests delivered on the three
iterations before the wrap of the miniature cycle leave the cycle
counter at 0 and produce exactly one flip at the wrap iteration
(the unlatched gate becomes latched). -/
theorem c5_toggle_collapse_witness :
    sW.first = false ∧ 0 < sW.cyc ∧
    sW.cyc < toU32 (computeBounds pW).rest_n ∧
    sW.cyc + ([true, true, true] : List Bool).length =
      toU32 (computeBounds pW).rest_n ∧
    (([true, true, true] : List Bool).foldl (step envW filtW pW) sW).cyc
      = 0 ∧
    (tick envW filtW pW
        (([true, true, true] : List Bool).foldl (step envW filtW pW)
          sW)).latched =
      Bool.xor (sW.toggle || ([true, true, true] : List Bool).any id)
        sW.latched ∧
    Bool.xor (sW.toggle || ([true, true, true] : List Bool).any id)
      sW.latched = true := by
  have hb : toU32 (computeBounds pW).rest_n = 4 := by
    rw [pW_bounds]
    decide
  have h1 : sW.cyc < toU32 (computeBounds pW).rest_n := by
    rw [hb]
    decide
  have h2 : sW.cyc + ([true, true, true] : List Bool).length =
      toU32 (computeBounds pW).rest_n := by
    rw [hb]
    decide
  have h := c5_toggle_collapse envW filtW pW sW rfl (by decide) h1
    [true, true, true] h2
  exact ⟨rfl, by decide, h1, h2, h.2.2.1, h.2.2.2, by decide⟩

end Purrmachine
